import Mathlib

/-!
Verification of the Python AST extractor
(`analysis/python/python_ast_extractor.py`).

The script parses one Python source file and emits a JSON document with
the module name, one record per top-visible declaration (class /
function / method), one record per imported name, and an always-empty
`relationships` array.  We embed the Python `ast` subtree shapes the
script inspects, the `CyclomaticComplexityCalculator` visitor, the
`PythonASTExtractor` visitor and the `main` entry point, and prove the
specification claims about them.
-/

/-! ## The Python AST model

Shapes of `ast` nodes that the script's visitors distinguish.  Every
expression shape that none of the visitors matches structurally
(calls, subscripts, lambdas, comparisons, ...) is represented by
`Expr.other`, carrying its `ast.unparse` text and its child
expressions (the children are what `generic_visit` recurses into). -/

inductive CompKind where
  | listC
  | setC
  | dictC
  | genExp
  deriving DecidableEq

mutual
/-- Python expression subtree, as far as the visitors distinguish shapes. -/
inductive Expr where
  | name (id : String)
  | constant (strRepr : String)
  | attribute (value : Expr) (attr : String)
  | boolOp (isAnd : Bool) (values : List Expr)
  | comp (kind : CompKind) (elts : List Expr) (generators : List Gen)
  | other (unparsed : String) (children : List Expr)

/-- One `ast.comprehension` clause: `for target in iter if ifs...`. -/
inductive Gen where
  | mk (target : Expr) (iter : Expr) (ifs : List Expr) (isAsync : Bool)
end

/-- One formal parameter (`ast.arg`): name plus optional annotation. -/
structure Arg where
  arg : String
  annot : Option Expr

/-- The `ast.arguments` node of a function definition. -/
structure Arguments where
  posonlyargs : List Arg
  args : List Arg
  vararg : Option Arg
  kwonlyargs : List Arg
  kwDefaults : List (Option Expr)
  kwarg : Option Arg
  defaults : List Expr

/-- One `ast.alias` inside an import statement. -/
structure Alias where
  name : String
  asname : Option String

/-- One `ast.withitem` of a `with` statement. -/
structure WithItem where
  contextExpr : Expr
  optionalVars : Option Expr

mutual
/-- Python statement subtree, as far as the visitors distinguish shapes.
`functionDef` covers both `ast.FunctionDef` and `ast.AsyncFunctionDef`
(flagged by `isAsync`); likewise `forStmt` and `withStmt` cover the
async variants. -/
inductive Stmt where
  | functionDef (name : String) (args : Arguments) (body : List Stmt)
      (decoratorList : List Expr) (returns : Option Expr) (isAsync : Bool)
      (lineno : Nat) (endLineno : Nat)
  | classDef (name : String) (bases : List Expr) (keywordValues : List Expr)
      (body : List Stmt) (decoratorList : List Expr) (lineno : Nat) (endLineno : Nat)
  | ifStmt (test : Expr) (body : List Stmt) (orelse : List Stmt)
  | whileStmt (test : Expr) (body : List Stmt) (orelse : List Stmt)
  | forStmt (target : Expr) (iter : Expr) (body : List Stmt)
      (orelse : List Stmt) (isAsync : Bool)
  | withStmt (items : List WithItem) (body : List Stmt) (isAsync : Bool)
  | tryStmt (body : List Stmt) (handlers : List Handler)
      (orelse : List Stmt) (finalbody : List Stmt)
  | importStmt (names : List Alias) (lineno : Nat)
  | importFrom (module : Option String) (names : List Alias) (lineno : Nat)
  | exprStmt (value : Expr)
  | returnStmt (value : Option Expr)
  | assign (targets : List Expr) (value : Expr)
  | passStmt

/-- One `ast.ExceptHandler` clause of a `try` statement. -/
inductive Handler where
  | mk (typeExpr : Option Expr) (name : Option String) (body : List Stmt)
end

/-- A parsed file (`ast.Module`): its list of top-level statements. -/
abbrev PyModule := List Stmt

/-! ## `CyclomaticComplexityCalculator`

The calculator is an `ast.NodeVisitor` holding one mutable integer
`self.complexity`, initialised to 1.  `visit` dispatches to a
`visit_<Kind>` handler when one exists (the handler adds its increment
and then calls `generic_visit`), and otherwise calls `generic_visit`
directly, which visits every child node.  We embed it by threading the
accumulator explicitly through the same traversal.  Crucially the
calculator defines no handler for `FunctionDef` / `AsyncFunctionDef` /
`ClassDef` / `Lambda`, so `generic_visit` descends into nested callable
bodies, decorator lists, argument defaults and annotations alike. -/

/-- Sum of `len(generator.ifs)` over the generators of a comprehension:
the increment added by `visit_ListComp` / `visit_SetComp` /
`visit_DictComp` / `visit_GeneratorExp`. -/
def Gen.ifsLen : Gen → Nat
  | .mk _ _ ifs _ => ifs.length

mutual
/-- The calculator's traversal of one expression node. -/
def ccVisitExpr (acc : Nat) : Expr → Nat
  | .name _ => acc
  | .constant _ => acc
  | .attribute v _ => ccVisitExpr acc v
  | .boolOp _ vs => ccVisitExprs (acc + (vs.length - 1)) vs
  | .comp _ elts gens =>
      ccVisitGens (ccVisitExprs (acc + (gens.map Gen.ifsLen).sum) elts) gens
  | .other _ cs => ccVisitExprs acc cs

/-- The calculator's traversal of a list of expression nodes. -/
def ccVisitExprs (acc : Nat) : List Expr → Nat
  | [] => acc
  | e :: es => ccVisitExprs (ccVisitExpr acc e) es

/-- The calculator's `generic_visit` of one comprehension clause
(`comprehension` has no handler, so only its children are visited). -/
def ccVisitGen (acc : Nat) : Gen → Nat
  | .mk t i ifs _ => ccVisitExprs (ccVisitExpr (ccVisitExpr acc t) i) ifs

/-- The calculator's traversal of a list of comprehension clauses. -/
def ccVisitGens (acc : Nat) : List Gen → Nat
  | [] => acc
  | g :: gs => ccVisitGens (ccVisitGen acc g) gs
end

/-- The calculator's traversal of an optional expression child. -/
def ccVisitOptExpr (acc : Nat) : Option Expr → Nat
  | none => acc
  | some e => ccVisitExpr acc e

/-- The calculator's `generic_visit` of one `ast.arg` node (its only
expression child is the annotation). -/
def ccVisitArg (acc : Nat) (a : Arg) : Nat :=
  ccVisitOptExpr acc a.annot

/-- The calculator's traversal of a list of `ast.arg` nodes. -/
def ccVisitArgList (acc : Nat) : List Arg → Nat
  | [] => acc
  | a :: as' => ccVisitArgList (ccVisitArg acc a) as'

/-- The calculator's traversal of an optional `ast.arg` node. -/
def ccVisitOptArg (acc : Nat) : Option Arg → Nat
  | none => acc
  | some a => ccVisitArg acc a

/-- The calculator's traversal of a list of optional expressions
(the `kw_defaults` field). -/
def ccVisitOptExprs (acc : Nat) : List (Option Expr) → Nat
  | [] => acc
  | o :: os => ccVisitOptExprs (ccVisitOptExpr acc o) os

/-- The calculator's `generic_visit` of an `ast.arguments` node, in
field order: posonlyargs, args, vararg, kwonlyargs, kw_defaults,
kwarg, defaults. -/
def ccVisitArguments (acc : Nat) (a : Arguments) : Nat :=
  ccVisitExprs
    (ccVisitOptArg
      (ccVisitOptExprs
        (ccVisitArgList
          (ccVisitOptArg (ccVisitArgList (ccVisitArgList acc a.posonlyargs) a.args)
            a.vararg)
          a.kwonlyargs)
        a.kwDefaults)
      a.kwarg)
    a.defaults

/-- The calculator's `generic_visit` of one `ast.withitem` node. -/
def ccVisitWithItem (acc : Nat) (w : WithItem) : Nat :=
  ccVisitOptExpr (ccVisitExpr acc w.contextExpr) w.optionalVars

/-- The calculator's traversal of a list of `ast.withitem` nodes. -/
def ccVisitWithItems (acc : Nat) : List WithItem → Nat
  | [] => acc
  | w :: ws => ccVisitWithItems (ccVisitWithItem acc w) ws

mutual
/-- The calculator's traversal of one statement node: the handler's
increment (if a handler exists for the shape) followed by
`generic_visit` over all children. -/
def ccVisitStmt (acc : Nat) : Stmt → Nat
  | .functionDef _ args body decs ret _ _ _ =>
      ccVisitOptExpr (ccVisitExprs (ccVisitStmts (ccVisitArguments acc args) body) decs) ret
  | .classDef _ bases kws body decs _ _ =>
      ccVisitExprs (ccVisitStmts (ccVisitExprs (ccVisitExprs acc bases) kws) body) decs
  | .ifStmt t body orelse =>
      ccVisitStmts (ccVisitStmts (ccVisitExpr (acc + 1) t) body) orelse
  | .whileStmt t body orelse =>
      ccVisitStmts (ccVisitStmts (ccVisitExpr (acc + 1) t) body) orelse
  | .forStmt tgt iter body orelse _ =>
      ccVisitStmts (ccVisitStmts (ccVisitExpr (ccVisitExpr (acc + 1) tgt) iter) body) orelse
  | .withStmt items body _ =>
      ccVisitStmts (ccVisitWithItems (acc + 1) items) body
  | .tryStmt body handlers orelse finalbody =>
      ccVisitStmts (ccVisitStmts (ccVisitHandlers (ccVisitStmts acc body) handlers) orelse)
        finalbody
  | .importStmt _ _ => acc
  | .importFrom _ _ _ => acc
  | .exprStmt e => ccVisitExpr acc e
  | .returnStmt v => ccVisitOptExpr acc v
  | .assign tgts v => ccVisitExpr (ccVisitExprs acc tgts) v
  | .passStmt => acc

/-- The calculator's traversal of a list of statement nodes. -/
def ccVisitStmts (acc : Nat) : List Stmt → Nat
  | [] => acc
  | s :: ss => ccVisitStmts (ccVisitStmt acc s) ss

/-- The calculator's visit of one `ast.ExceptHandler` clause:
`visit_ExceptHandler` adds 1, then `generic_visit`. -/
def ccVisitHandler (acc : Nat) : Handler → Nat
  | .mk t _ body => ccVisitStmts (ccVisitOptExpr (acc + 1) t) body

/-- The calculator's traversal of a list of handler clauses. -/
def ccVisitHandlers (acc : Nat) : List Handler → Nat
  | [] => acc
  | h :: hs => ccVisitHandlers (ccVisitHandler acc h) hs
end

/-- Running the calculator on a callable declaration exactly as
`visit_FunctionDef` does: `CyclomaticComplexityCalculator()` starts at
complexity 1 and `visit(node)` is invoked on the whole `FunctionDef`
node (which has no handler, so `generic_visit` walks all its
children). -/
def calcComplexity (s : Stmt) : Nat :=
  ccVisitStmt 1 s

/-! ## Pure form of the calculator

The calculator only ever adds to its accumulator, so its run equals
the start value plus a pure sum of per-construct increments.  The
`ccCount` functions are that sum, with exactly the increment table of
spec section 4.1: +1 per `if` test node, +1 per loop (`for`/`while`
and async variants), +1 per except-handler clause, +1 per `with`
(including async), +(N−1) per boolean combination of N operands, and
+1 per comprehension filter condition; unmatched constructs add 0. -/

mutual
/-- Increment total contributed by one expression subtree. -/
def ccCountExpr : Expr → Nat
  | .name _ => 0
  | .constant _ => 0
  | .attribute v _ => ccCountExpr v
  | .boolOp _ vs => (vs.length - 1) + ccCountExprs vs
  | .comp _ elts gens => (gens.map Gen.ifsLen).sum + ccCountExprs elts + ccCountGens gens
  | .other _ cs => ccCountExprs cs

/-- Increment total contributed by a list of expressions. -/
def ccCountExprs : List Expr → Nat
  | [] => 0
  | e :: es => ccCountExpr e + ccCountExprs es

/-- Increment total contributed by one comprehension clause. -/
def ccCountGen : Gen → Nat
  | .mk t i ifs _ => ccCountExpr t + ccCountExpr i + ccCountExprs ifs

/-- Increment total contributed by a list of comprehension clauses. -/
def ccCountGens : List Gen → Nat
  | [] => 0
  | g :: gs => ccCountGen g + ccCountGens gs
end

/-- Increment total contributed by an optional expression. -/
def ccCountOptExpr : Option Expr → Nat
  | none => 0
  | some e => ccCountExpr e

/-- Increment total contributed by one `ast.arg` node. -/
def ccCountArg (a : Arg) : Nat :=
  ccCountOptExpr a.annot

/-- Increment total contributed by a list of `ast.arg` nodes. -/
def ccCountArgList : List Arg → Nat
  | [] => 0
  | a :: as' => ccCountArg a + ccCountArgList as'

/-- Increment total contributed by an optional `ast.arg` node. -/
def ccCountOptArg : Option Arg → Nat
  | none => 0
  | some a => ccCountArg a

/-- Increment total contributed by a list of optional expressions. -/
def ccCountOptExprs : List (Option Expr) → Nat
  | [] => 0
  | o :: os => ccCountOptExpr o + ccCountOptExprs os

/-- Increment total contributed by an `ast.arguments` node. -/
def ccCountArguments (a : Arguments) : Nat :=
  ccCountArgList a.posonlyargs + ccCountArgList a.args + ccCountOptArg a.vararg +
    ccCountArgList a.kwonlyargs + ccCountOptExprs a.kwDefaults + ccCountOptArg a.kwarg +
    ccCountExprs a.defaults

/-- Increment total contributed by one `ast.withitem` node. -/
def ccCountWithItem (w : WithItem) : Nat :=
  ccCountExpr w.contextExpr + ccCountOptExpr w.optionalVars

/-- Increment total contributed by a list of `ast.withitem` nodes. -/
def ccCountWithItems : List WithItem → Nat
  | [] => 0
  | w :: ws => ccCountWithItem w + ccCountWithItems ws

mutual
/-- Increment total contributed by one statement subtree. -/
def ccCountStmt : Stmt → Nat
  | .functionDef _ args body decs ret _ _ _ =>
      ccCountArguments args + ccCountStmts body + ccCountExprs decs + ccCountOptExpr ret
  | .classDef _ bases kws body decs _ _ =>
      ccCountExprs bases + ccCountExprs kws + ccCountStmts body + ccCountExprs decs
  | .ifStmt t body orelse => 1 + ccCountExpr t + ccCountStmts body + ccCountStmts orelse
  | .whileStmt t body orelse => 1 + ccCountExpr t + ccCountStmts body + ccCountStmts orelse
  | .forStmt tgt iter body orelse _ =>
      1 + ccCountExpr tgt + ccCountExpr iter + ccCountStmts body + ccCountStmts orelse
  | .withStmt items body _ => 1 + ccCountWithItems items + ccCountStmts body
  | .tryStmt body handlers orelse finalbody =>
      ccCountStmts body + ccCountHandlers handlers + ccCountStmts orelse +
        ccCountStmts finalbody
  | .importStmt _ _ => 0
  | .importFrom _ _ _ => 0
  | .exprStmt e => ccCountExpr e
  | .returnStmt v => ccCountOptExpr v
  | .assign tgts v => ccCountExprs tgts + ccCountExpr v
  | .passStmt => 0

/-- Increment total contributed by a list of statements. -/
def ccCountStmts : List Stmt → Nat
  | [] => 0
  | s :: ss => ccCountStmt s + ccCountStmts ss

/-- Increment total contributed by one except-handler clause. -/
def ccCountHandler : Handler → Nat
  | .mk t _ body => 1 + ccCountOptExpr t + ccCountStmts body

/-- Increment total contributed by a list of handler clauses. -/
def ccCountHandlers : List Handler → Nat
  | [] => 0
  | h :: hs => ccCountHandler h + ccCountHandlers hs
end

/-! ## Annotation / name resolution

`_get_annotation` and `_get_name_from_node` turn an expression subtree
into a string label: a bare identifier gives its text, a literal its
textual representation, an attribute chain is resolved recursively and
joined with dots, and any other shape falls back to `ast.unparse`
(available on the targeted interpreters).  `unparseModel` models the
`ast.unparse` fallback text for the shapes the visitors distinguish
structurally; the `Expr.other` constructor carries its unparse text
directly.  A `constant` carries its textual representation as one
string field. -/

mutual
/-- Modelled `ast.unparse` rendering of an expression. -/
def unparseModel : Expr → String
  | .name i => i
  | .constant r => r
  | .attribute v a => unparseModel v ++ "." ++ a
  | .boolOp isAnd vs =>
      String.intercalate (if isAnd then " and " else " or ") (unparseModelList vs)
  | .comp _ elts gens =>
      String.intercalate " " (unparseModelList elts ++ unparseModelGens gens)
  | .other u _ => u

/-- Modelled `ast.unparse` of each expression in a list. -/
def unparseModelList : List Expr → List String
  | [] => []
  | e :: es => unparseModel e :: unparseModelList es

/-- Modelled `ast.unparse` of one comprehension clause. -/
def unparseModelGen : Gen → String
  | .mk t i ifs _ =>
      "for " ++ unparseModel t ++ " in " ++ unparseModel i ++
        String.join ((unparseModelList ifs).map (fun s => " if " ++ s))

/-- Modelled `ast.unparse` of each comprehension clause in a list. -/
def unparseModelGens : List Gen → List String
  | [] => []
  | g :: gs => unparseModelGen g :: unparseModelGens gs
end

/-- The `_get_annotation` resolver. -/
def getAnnot : Expr → String
  | .name i => i
  | .constant r => r
  | .attribute v a => getAnnot v ++ "." ++ a
  | e => unparseModel e

/-- The guarded use `_get_annotation(arg.annotation) if arg.annotation else ""`. -/
def annotOrEmpty : Option Expr → String
  | none => ""
  | some e => getAnnot e

/-- The `_get_name_from_node` resolver (decorators and base classes). -/
def getNameFromNode : Expr → String
  | .name i => i
  | .attribute v a => getNameFromNode v ++ "." ++ a
  | .constant r => r
  | e => unparseModel e

/-! ## Emitted records -/

/-- One `{"name": ..., "type": ...}` entry of `parameters` / `return_values`. -/
structure Param where
  name : String
  type : String
  deriving DecidableEq, Repr

/-- The `PythonASTNode` record the extractor emits per declaration. -/
structure PythonASTNode where
  type : String
  name : String
  start_line : Nat
  end_line : Nat
  parameter_count : Nat
  return_count : Nat
  parameters : List Param
  return_values : List Param
  cyclomatic_complexity : Nat
  parent : String
  decorators : List String
  base_classes : List String
  deriving DecidableEq, Repr

/-- `PythonASTNode.__init__`: the field defaults every record starts from. -/
def PythonASTNode.make (nodeType : String) (name : String)
    (startLine : Nat) (endLine : Nat) : PythonASTNode :=
  { type := nodeType, name := name, start_line := startLine, end_line := endLine,
    parameter_count := 0, return_count := 0, parameters := [], return_values := [],
    cyclomatic_complexity := 1, parent := "", decorators := [], base_classes := [] }

/-- One import record (`import_info` dictionary). -/
structure ImportRec where
  module : String
  name : String
  aliasStr : String
  line : Nat
  deriving DecidableEq, Repr

/-- Python truthiness of an optional string (`None` and `""` are falsy). -/
def strTruthy : Option String → Bool
  | none => false
  | some s => s != ""

/-- Python's `x if x else d` on an optional string. -/
def optStrOr (o : Option String) (d : String) : String :=
  match o with
  | none => d
  | some s => if s == "" then d else s

/-- Record built by `visit_Import` for one alias. -/
def importInfo (line : Nat) (a : Alias) : ImportRec :=
  { module := a.name, name := optStrOr a.asname a.name,
    aliasStr := optStrOr a.asname "", line := line }

/-- Record built by `visit_ImportFrom` for one alias:
`module = f"{module}.{alias.name}" if module else alias.name`. -/
def importFromInfo (module : Option String) (line : Nat) (a : Alias) : ImportRec :=
  let m := optStrOr module ""
  { module := if m == "" then a.name else m ++ "." ++ a.name,
    name := optStrOr a.asname a.name,
    aliasStr := optStrOr a.asname "", line := line }

/-- Record built by `visit_FunctionDef` (also used for async defs):
kind and parent from the current-class register's truthiness,
parameters from `args.args`, then `vararg`, then `kwarg`, return
values from the return annotation, and complexity from running the
calculator on the whole declaration node. -/
def buildFuncNode (currentClass : Option String) (name : String) (args : Arguments)
    (body : List Stmt) (decs : List Expr) (returns : Option Expr) (isAsync : Bool)
    (lineno : Nat) (endLineno : Nat) : PythonASTNode :=
  let nodeType := if strTruthy currentClass then "method" else "function"
  let parent := if strTruthy currentClass then currentClass.getD "" else ""
  let params :=
    args.args.map (fun a => Param.mk a.arg (annotOrEmpty a.annot))
      ++ (match args.vararg with
          | some a => [Param.mk ("*" ++ a.arg) (annotOrEmpty a.annot)]
          | none => [])
      ++ (match args.kwarg with
          | some a => [Param.mk ("**" ++ a.arg) (annotOrEmpty a.annot)]
          | none => [])
  { PythonASTNode.make nodeType name lineno endLineno with
    parent := parent,
    parameters := params,
    parameter_count := params.length,
    return_values := match returns with
      | some r => [Param.mk "" (getAnnot r)]
      | none => [],
    return_count := match returns with
      | some _ => 1
      | none => 0,
    cyclomatic_complexity :=
      calcComplexity (.functionDef name args body decs returns isAsync lineno endLineno),
    decorators := decs.map getNameFromNode }

/-- Record built by `visit_ClassDef` before walking the class body. -/
def buildClassNode (name : String) (bases : List Expr) (decs : List Expr)
    (lineno : Nat) (endLineno : Nat) : PythonASTNode :=
  { PythonASTNode.make "class" name lineno endLineno with
    base_classes := bases.map getNameFromNode,
    decorators := decs.map getNameFromNode }

/-! ## `PythonASTExtractor`

The extractor visitor keeps two output lists (`self.nodes`,
`self.imports`) and one register `self.current_class`.  Handlers exist
for `ClassDef` (emit, push class name, `generic_visit` into the body,
restore), `FunctionDef` / `AsyncFunctionDef` (emit and do NOT recurse)
and the import statements; every other statement shape has no handler,
so `generic_visit` descends into its nested statement blocks. -/

/-- The extractor's mutable output state. -/
structure ExtState where
  nodes : List PythonASTNode
  imports : List ImportRec
  deriving DecidableEq, Repr

mutual
/-- The extractor's visit of one statement. -/
def exVisitStmt (cls : Option String) (st : ExtState) : Stmt → ExtState
  | .functionDef name args body decs ret isAsync l1 l2 =>
      { st with nodes :=
          st.nodes ++ [buildFuncNode cls name args body decs ret isAsync l1 l2] }
  | .classDef name bases _ body decs l1 l2 =>
      exVisitStmts (some name)
        { st with nodes := st.nodes ++ [buildClassNode name bases decs l1 l2] } body
  | .ifStmt _ body orelse => exVisitStmts cls (exVisitStmts cls st body) orelse
  | .whileStmt _ body orelse => exVisitStmts cls (exVisitStmts cls st body) orelse
  | .forStmt _ _ body orelse _ => exVisitStmts cls (exVisitStmts cls st body) orelse
  | .withStmt _ body _ => exVisitStmts cls st body
  | .tryStmt body handlers orelse finalbody =>
      exVisitStmts cls
        (exVisitStmts cls (exVisitHandlers cls (exVisitStmts cls st body) handlers) orelse)
        finalbody
  | .importStmt names line =>
      { st with imports := st.imports ++ names.map (importInfo line) }
  | .importFrom module names line =>
      { st with imports := st.imports ++ names.map (importFromInfo module line) }
  | .exprStmt _ => st
  | .returnStmt _ => st
  | .assign _ _ => st
  | .passStmt => st

/-- The extractor's visit of a list of statements, in order. -/
def exVisitStmts (cls : Option String) (st : ExtState) : List Stmt → ExtState
  | [] => st
  | s :: ss => exVisitStmts cls (exVisitStmt cls st s) ss

/-- The extractor's `generic_visit` descent into one except-handler body. -/
def exVisitHandler (cls : Option String) (st : ExtState) : Handler → ExtState
  | .mk _ _ body => exVisitStmts cls st body

/-- The extractor's descent into a list of except handlers. -/
def exVisitHandlers (cls : Option String) (st : ExtState) : List Handler → ExtState
  | [] => st
  | h :: hs => exVisitHandlers cls (exVisitHandler cls st h) hs
end

/-! ### Pure form of the extractor

Since the handlers only append to the two output lists, a visit equals
the incoming state with the per-subtree contributions appended. -/

mutual
/-- Declaration records contributed by one statement subtree. -/
def nodesOfStmt (cls : Option String) : Stmt → List PythonASTNode
  | .functionDef name args body decs ret isAsync l1 l2 =>
      [buildFuncNode cls name args body decs ret isAsync l1 l2]
  | .classDef name bases _ body decs l1 l2 =>
      buildClassNode name bases decs l1 l2 :: nodesOfStmts (some name) body
  | .ifStmt _ body orelse => nodesOfStmts cls body ++ nodesOfStmts cls orelse
  | .whileStmt _ body orelse => nodesOfStmts cls body ++ nodesOfStmts cls orelse
  | .forStmt _ _ body orelse _ => nodesOfStmts cls body ++ nodesOfStmts cls orelse
  | .withStmt _ body _ => nodesOfStmts cls body
  | .tryStmt body handlers orelse finalbody =>
      nodesOfStmts cls body ++ nodesOfHandlers cls handlers ++ nodesOfStmts cls orelse ++
        nodesOfStmts cls finalbody
  | .importStmt _ _ => []
  | .importFrom _ _ _ => []
  | .exprStmt _ => []
  | .returnStmt _ => []
  | .assign _ _ => []
  | .passStmt => []

/-- Declaration records contributed by a list of statements. -/
def nodesOfStmts (cls : Option String) : List Stmt → List PythonASTNode
  | [] => []
  | s :: ss => nodesOfStmt cls s ++ nodesOfStmts cls ss

/-- Declaration records contributed by one except handler. -/
def nodesOfHandler (cls : Option String) : Handler → List PythonASTNode
  | .mk _ _ body => nodesOfStmts cls body

/-- Declaration records contributed by a list of except handlers. -/
def nodesOfHandlers (cls : Option String) : List Handler → List PythonASTNode
  | [] => []
  | h :: hs => nodesOfHandler cls h ++ nodesOfHandlers cls hs
end

mutual
/-- Import records contributed by one statement subtree. -/
def importsOfStmt : Stmt → List ImportRec
  | .functionDef _ _ _ _ _ _ _ _ => []
  | .classDef _ _ _ body _ _ _ => importsOfStmts body
  | .ifStmt _ body orelse => importsOfStmts body ++ importsOfStmts orelse
  | .whileStmt _ body orelse => importsOfStmts body ++ importsOfStmts orelse
  | .forStmt _ _ body orelse _ => importsOfStmts body ++ importsOfStmts orelse
  | .withStmt _ body _ => importsOfStmts body
  | .tryStmt body handlers orelse finalbody =>
      importsOfStmts body ++ importsOfHandlers handlers ++ importsOfStmts orelse ++
        importsOfStmts finalbody
  | .importStmt names line => names.map (importInfo line)
  | .importFrom module names line => names.map (importFromInfo module line)
  | .exprStmt _ => []
  | .returnStmt _ => []
  | .assign _ _ => []
  | .passStmt => []

/-- Import records contributed by a list of statements. -/
def importsOfStmts : List Stmt → List ImportRec
  | [] => []
  | s :: ss => importsOfStmt s ++ importsOfStmts ss

/-- Import records contributed by one except handler. -/
def importsOfHandler : Handler → List ImportRec
  | .mk _ _ body => importsOfStmts body

/-- Import records contributed by a list of except handlers. -/
def importsOfHandlers : List Handler → List ImportRec
  | [] => []
  | h :: hs => importsOfHandler h ++ importsOfHandlers hs
end

/-! ## `_get_module_name`, `extract` and the CLI shell `main` -/

/-- `os.path.basename`: the path after the last separator. -/
def osBasename (p : String) : String :=
  String.mk ((p.toList.reverse.takeWhile (fun c => c != '/')).reverse)

/-- Root part of `os.path.splitext` on a basename: drop the suffix from
the last dot, unless every character before that dot is itself a dot
(so `".bashrc"` keeps its name whole). -/
def splitextRoot (b : String) : String :=
  let cs := b.toList
  match cs.reverse.findIdx? (fun c => c == '.') with
  | none => b
  | some j =>
      let i := cs.length - 1 - j
      if (cs.take i).any (fun c => c != '.') then String.mk (cs.take i) else b

/-- `_get_module_name`: base name of the input path, extension stripped. -/
def getModuleName (p : String) : String :=
  splitextRoot (osBasename p)

/-- The JSON document the script prints. -/
structure ModuleResult where
  module : String
  nodes : List PythonASTNode
  imports : List ImportRec
  relationships : List String
  deriving DecidableEq, Repr

/-- The all-empty document printed on usage errors and outer failures. -/
def emptyResult (module : String) : ModuleResult :=
  { module := module, nodes := [], imports := [], relationships := [] }

/-- `PythonASTExtractor.extract`: on a successful parse, visit the tree
from an empty state with no current class and assemble the document; a
`SyntaxError` from `ast.parse` is caught and yields the empty document
that still carries the module name. -/
def extract (filePath : String) (parsed : Option PyModule) : ModuleResult :=
  match parsed with
  | some tree =>
      let st := exVisitStmts none (ExtState.mk [] []) tree
      { module := getModuleName filePath, nodes := st.nodes,
        imports := st.imports, relationships := [] }
  | none => emptyResult (getModuleName filePath)

/-- One invocation of the script, with its externally determined
events: `wrongArgCount` models `len(sys.argv) != 2`; otherwise `run`
carries the file path, the outcome of opening/reading plus parsing the
file (`none` = the read raised; `some none` = the read succeeded and
`ast.parse` raised `SyntaxError`; `some (some tree)` = parsed), and
whether any other exception reached `main`'s handler during
traversal or serialization. -/
inductive Invocation where
  | wrongArgCount (argc : Nat)
  | run (filePath : String) (readParsed : Option (Option PyModule)) (laterFailure : Bool)

/-- The `main` entry point: the document printed to stdout and the
process exit status. -/
def mainRun : Invocation → ModuleResult × Nat
  | .wrongArgCount _ => (emptyResult "", 1)
  | .run _ none _ => (emptyResult "", 0)
  | .run _ (some _) true => (emptyResult "", 0)
  | .run path (some parsed) false => (extract path parsed, 0)

/-! ## Specification-side definitions

These definitions follow the specification's words, not the code, and
exist to be compared with the embedded code above. -/

mutual
/-- Spec reading of the complexity traversal scope (sections 4.1/C1):
increments gathered from the callable's own body only — recursing into
nested blocks and sub-expressions, but contributing 0 for (and not
descending into) a callable declaration nested in the body. -/
def specOwnStmt : Stmt → Nat
  | .functionDef _ _ _ _ _ _ _ _ => 0
  | .classDef _ bases kws body decs _ _ =>
      ccCountExprs bases + ccCountExprs kws + specOwnStmts body + ccCountExprs decs
  | .ifStmt t body orelse => 1 + ccCountExpr t + specOwnStmts body + specOwnStmts orelse
  | .whileStmt t body orelse => 1 + ccCountExpr t + specOwnStmts body + specOwnStmts orelse
  | .forStmt tgt iter body orelse _ =>
      1 + ccCountExpr tgt + ccCountExpr iter + specOwnStmts body + specOwnStmts orelse
  | .withStmt items body _ => 1 + ccCountWithItems items + specOwnStmts body
  | .tryStmt body handlers orelse finalbody =>
      specOwnStmts body + specOwnHandlers handlers + specOwnStmts orelse +
        specOwnStmts finalbody
  | .importStmt _ _ => 0
  | .importFrom _ _ _ => 0
  | .exprStmt e => ccCountExpr e
  | .returnStmt v => ccCountOptExpr v
  | .assign tgts v => ccCountExprs tgts + ccCountExpr v
  | .passStmt => 0

/-- Spec-side increment total of a list of body statements. -/
def specOwnStmts : List Stmt → Nat
  | [] => 0
  | s :: ss => specOwnStmt s + specOwnStmts ss

/-- Spec-side increment total of one except-handler clause. -/
def specOwnHandler : Handler → Nat
  | .mk t _ body => 1 + ccCountOptExpr t + specOwnStmts body

/-- Spec-side increment total of a list of handler clauses. -/
def specOwnHandlers : List Handler → Nat
  | [] => 0
  | h :: hs => specOwnHandler h + specOwnHandlers hs
end

/-- Spec reading of a callable's complexity per claim C1: one plus the
increments of the callable's own body, with nested callables,
decorators and parameter default expressions all contributing 0. -/
def specOwnBodyComplexity : Stmt → Nat
  | .functionDef _ _ body _ _ _ _ _ => 1 + specOwnStmts body
  | s => 1 + specOwnStmt s

/-- Number of parameters a function declares (claim C3's "one entry per
declared parameter"): positional-only, positional-or-keyword and
keyword-only parameters, plus the variadic markers when present. -/
def specDeclaredParamCount (a : Arguments) : Nat :=
  a.posonlyargs.length + a.args.length + a.kwonlyargs.length +
    (if a.vararg.isSome then 1 else 0) + (if a.kwarg.isSome then 1 else 0)

mutual
/-- Spec reading of which declarations are emitted (claim C9): the
names of declarations reachable in a top-down walk that enters class
bodies and nested statement blocks but never a callable's body. -/
def visibleDeclNames : List Stmt → List String
  | [] => []
  | s :: ss => visibleDeclNamesStmt s ++ visibleDeclNames ss

/-- Spec-side visible declarations of one statement. -/
def visibleDeclNamesStmt : Stmt → List String
  | .functionDef name _ _ _ _ _ _ _ => [name]
  | .classDef name _ _ body _ _ _ => name :: visibleDeclNames body
  | .ifStmt _ body orelse => visibleDeclNames body ++ visibleDeclNames orelse
  | .whileStmt _ body orelse => visibleDeclNames body ++ visibleDeclNames orelse
  | .forStmt _ _ body orelse _ => visibleDeclNames body ++ visibleDeclNames orelse
  | .withStmt _ body _ => visibleDeclNames body
  | .tryStmt body handlers orelse finalbody =>
      visibleDeclNames body ++ visibleDeclNamesHandlers handlers ++
        visibleDeclNames orelse ++ visibleDeclNames finalbody
  | .importStmt _ _ => []
  | .importFrom _ _ _ => []
  | .exprStmt _ => []
  | .returnStmt _ => []
  | .assign _ _ => []
  | .passStmt => []

/-- Spec-side visible declarations of the handler clauses. -/
def visibleDeclNamesHandlers : List Handler → List String
  | [] => []
  | h :: hs => visibleDeclNamesHandler h ++ visibleDeclNamesHandlers hs

/-- Spec-side visible declarations of one handler clause. -/
def visibleDeclNamesHandler : Handler → List String
  | .mk _ _ body => visibleDeclNames body
end

/-- An `Arguments` node with no parameters and no defaults adds no
increments. -/
def emptyArgs : Arguments :=
  ⟨[], [], none, [], [], none, []⟩

/-! ## Concrete fixtures -/

/-- The `multiply` scenario of spec section 8: a callable whose body
holds an assignment, one `for` loop containing one conditional, and a
return (testdata `calculator.py`, lines 12–16). -/
def multiplyDef : Stmt :=
  .functionDef "multiply"
    ⟨[], [Arg.mk "self" none, Arg.mk "x" none, Arg.mk "y" none], none, [], [], none, []⟩
    [ .assign [.name "result"] (.other "x * y" [.name "x", .name "y"]),
      .forStmt (.name "i") (.other "range(y)" [.name "y"])
        [ .ifStmt (.other "i % 2 == 0" [.name "i"])
            [.assign [.name "result"] (.other "result + i" [.name "result", .name "i"])]
            [] ]
        [] false,
      .returnStmt (some (.name "result")) ]
    [] none false 12 16

/-- A nested function `g` containing one conditional. -/
def nestedG : Stmt :=
  .functionDef "g" emptyArgs [.ifStmt (.name "x") [.passStmt] []] [] none false 2 3

/-- A top-level function `f` whose body is exactly the nested `def g`. -/
def outerWithNested : Stmt :=
  .functionDef "f" emptyArgs [nestedG] [] none false 1 3

/-- A function with a branch-free body but a decorator expression that
is a two-operand boolean combination. -/
def boolDecoratedDef : Stmt :=
  .functionDef "h" emptyArgs [.passStmt]
    [.boolOp true [.name "a", .name "b"]] none false 2 3

/-- The function `def d(x=a and b): pass`: a branch-free body, with a
two-operand boolean combination as the parameter's default
expression. -/
def boolDefaultDef : Stmt :=
  .functionDef "d"
    ⟨[], [Arg.mk "x" none], none, [], [], none, [.boolOp true [.name "a", .name "b"]]⟩
    [.passStmt] [] none false 1 1

/-- Arguments declaring exactly one keyword-only parameter `c`
(as in `def f(*, c): ...`). -/
def kwOnlyArguments : Arguments :=
  ⟨[], [], none, [Arg.mk "c" none], [none], none, []⟩

/-- The function `def f(*, c): pass`. -/
def kwOnlyDef : Stmt :=
  .functionDef "f" kwOnlyArguments [.passStmt] [] none false 1 2

/-- The statement `from typing import Optional, Dict` on line 2. -/
def typingImportStmt : Stmt :=
  .importFrom (some "typing") [Alias.mk "Optional" none, Alias.mk "Dict" none] 2

/-- A class `Outer` containing a class `Inner` containing a method `m`. -/
def nestedClassMod : PyModule :=
  [ .classDef "Outer" [] []
      [ .classDef "Inner" [] []
          [ .functionDef "m" ⟨[], [Arg.mk "self" none], none, [], [], none, []⟩
              [.passStmt] [] none false 3 4 ]
          [] 2 4 ]
      [] 1 4 ]

/-- A branch-free callable: `def ident(x): return x`. -/
def identDef : Stmt :=
  .functionDef "ident" ⟨[], [Arg.mk "x" none], none, [], [], none, []⟩
    [.returnStmt (some (.name "x"))] [] none false 1 1

/-! ### The calculator's run equals start value plus the pure sum -/

theorem ccVisitExpr_eq_add (acc : Nat) (e : Expr) :
    ccVisitExpr acc e = acc + ccCountExpr e := by
  refine ccVisitExpr.induct
    (fun acc e => ccVisitExpr acc e = acc + ccCountExpr e)
    (fun acc gs => ccVisitGens acc gs = acc + ccCountGens gs)
    (fun acc g => ccVisitGen acc g = acc + ccCountGen g)
    (fun acc es => ccVisitExprs acc es = acc + ccCountExprs es)
    ?_ ?_ ?_ ?_ ?_ ?_ ?_ ?_ ?_ ?_ ?_ acc e <;>
  · intros
    simp_all [ccVisitExpr, ccVisitExprs, ccVisitGen, ccVisitGens,
      ccCountExpr, ccCountExprs, ccCountGen, ccCountGens]
    try omega

theorem ccVisitExprs_eq_add (acc : Nat) (es : List Expr) :
    ccVisitExprs acc es = acc + ccCountExprs es := by
  induction es generalizing acc with
  | nil => simp [ccVisitExprs, ccCountExprs]
  | cons e es ih =>
      simp [ccVisitExprs, ccCountExprs, ccVisitExpr_eq_add, ih]
      omega

theorem ccVisitOptExpr_eq_add (acc : Nat) (o : Option Expr) :
    ccVisitOptExpr acc o = acc + ccCountOptExpr o := by
  cases o <;> simp [ccVisitOptExpr, ccCountOptExpr, ccVisitExpr_eq_add]

theorem ccVisitArg_eq_add (acc : Nat) (a : Arg) :
    ccVisitArg acc a = acc + ccCountArg a := by
  simp [ccVisitArg, ccCountArg, ccVisitOptExpr_eq_add]

theorem ccVisitArgList_eq_add (acc : Nat) (l : List Arg) :
    ccVisitArgList acc l = acc + ccCountArgList l := by
  induction l generalizing acc with
  | nil => simp [ccVisitArgList, ccCountArgList]
  | cons a l ih =>
      simp [ccVisitArgList, ccCountArgList, ccVisitArg_eq_add, ih]
      omega

theorem ccVisitOptArg_eq_add (acc : Nat) (o : Option Arg) :
    ccVisitOptArg acc o = acc + ccCountOptArg o := by
  cases o <;> simp [ccVisitOptArg, ccCountOptArg, ccVisitArg_eq_add]

theorem ccVisitOptExprs_eq_add (acc : Nat) (l : List (Option Expr)) :
    ccVisitOptExprs acc l = acc + ccCountOptExprs l := by
  induction l generalizing acc with
  | nil => simp [ccVisitOptExprs, ccCountOptExprs]
  | cons o l ih =>
      simp [ccVisitOptExprs, ccCountOptExprs, ccVisitOptExpr_eq_add, ih]
      omega

theorem ccVisitArguments_eq_add (acc : Nat) (a : Arguments) :
    ccVisitArguments acc a = acc + ccCountArguments a := by
  simp [ccVisitArguments, ccCountArguments, ccVisitArgList_eq_add,
    ccVisitOptArg_eq_add, ccVisitOptExprs_eq_add, ccVisitExprs_eq_add]
  omega

theorem ccVisitWithItem_eq_add (acc : Nat) (w : WithItem) :
    ccVisitWithItem acc w = acc + ccCountWithItem w := by
  simp [ccVisitWithItem, ccCountWithItem, ccVisitExpr_eq_add, ccVisitOptExpr_eq_add]
  omega

theorem ccVisitWithItems_eq_add (acc : Nat) (l : List WithItem) :
    ccVisitWithItems acc l = acc + ccCountWithItems l := by
  induction l generalizing acc with
  | nil => simp [ccVisitWithItems, ccCountWithItems]
  | cons w l ih =>
      simp [ccVisitWithItems, ccCountWithItems, ccVisitWithItem_eq_add, ih]
      omega

theorem ccVisitStmt_eq_add (acc : Nat) (s : Stmt) :
    ccVisitStmt acc s = acc + ccCountStmt s := by
  refine ccVisitStmt.induct
    (fun acc s => ccVisitStmt acc s = acc + ccCountStmt s)
    (fun acc hs => ccVisitHandlers acc hs = acc + ccCountHandlers hs)
    (fun acc h => ccVisitHandler acc h = acc + ccCountHandler h)
    (fun acc ss => ccVisitStmts acc ss = acc + ccCountStmts ss)
    ?_ ?_ ?_ ?_ ?_ ?_ ?_ ?_ ?_ ?_ ?_ ?_ ?_ ?_ ?_ ?_ ?_ ?_ acc s <;>
  · intros
    simp_all [ccVisitStmt, ccVisitStmts, ccVisitHandler, ccVisitHandlers,
      ccCountStmt, ccCountStmts, ccCountHandler, ccCountHandlers,
      ccVisitExpr_eq_add, ccVisitExprs_eq_add, ccVisitOptExpr_eq_add,
      ccVisitArguments_eq_add, ccVisitWithItems_eq_add]
    try omega

theorem ccVisitStmts_eq_add (acc : Nat) (ss : List Stmt) :
    ccVisitStmts acc ss = acc + ccCountStmts ss := by
  induction ss generalizing acc with
  | nil => simp [ccVisitStmts, ccCountStmts]
  | cons s ss ih =>
      simp [ccVisitStmts, ccCountStmts, ccVisitStmt_eq_add, ih]
      omega

theorem exVisitStmt_eq_append (cls : Option String) (st : ExtState) (s : Stmt) :
    exVisitStmt cls st s =
      ExtState.mk (st.nodes ++ nodesOfStmt cls s) (st.imports ++ importsOfStmt s) := by
  refine exVisitStmt.induct
    (fun cls st s => exVisitStmt cls st s =
      ExtState.mk (st.nodes ++ nodesOfStmt cls s) (st.imports ++ importsOfStmt s))
    (fun cls st hs => exVisitHandlers cls st hs =
      ExtState.mk (st.nodes ++ nodesOfHandlers cls hs) (st.imports ++ importsOfHandlers hs))
    (fun cls st h => exVisitHandler cls st h =
      ExtState.mk (st.nodes ++ nodesOfHandler cls h) (st.imports ++ importsOfHandler h))
    (fun cls st ss => exVisitStmts cls st ss =
      ExtState.mk (st.nodes ++ nodesOfStmts cls ss) (st.imports ++ importsOfStmts ss))
    ?_ ?_ ?_ ?_ ?_ ?_ ?_ ?_ ?_ ?_ ?_ ?_ ?_ ?_ ?_ ?_ ?_ ?_ cls st s <;>
  · intros
    simp_all [exVisitStmt, exVisitStmts, exVisitHandler, exVisitHandlers,
      nodesOfStmt, nodesOfStmts, nodesOfHandler, nodesOfHandlers,
      importsOfStmt, importsOfStmts, importsOfHandler, importsOfHandlers]

theorem exVisitStmts_eq_append (cls : Option String) (st : ExtState) (ss : List Stmt) :
    exVisitStmts cls st ss =
      ExtState.mk (st.nodes ++ nodesOfStmts cls ss) (st.imports ++ importsOfStmts ss) := by
  induction ss generalizing st with
  | nil => simp [exVisitStmts, nodesOfStmts, importsOfStmts]
  | cons s ss ih =>
      simp [exVisitStmts, nodesOfStmts, importsOfStmts, exVisitStmt_eq_append, ih]

/-! ## Shared helper lemmas -/

theorem ccCountStmts_append (a b : List Stmt) :
    ccCountStmts (a ++ b) = ccCountStmts a + ccCountStmts b := by
  induction a with
  | nil => simp [ccCountStmts]
  | cons s ss ih => simp [ccCountStmts, ih]; omega

theorem nodesOf_complexity_ge_one (cls : Option String) (ss : List Stmt) :
    ∀ rec ∈ nodesOfStmts cls ss, 1 ≤ rec.cyclomatic_complexity := by
  refine nodesOfStmts.induct
    (fun cls s => ∀ rec ∈ nodesOfStmt cls s, 1 ≤ rec.cyclomatic_complexity)
    (fun cls hs => ∀ rec ∈ nodesOfHandlers cls hs, 1 ≤ rec.cyclomatic_complexity)
    (fun cls h => ∀ rec ∈ nodesOfHandler cls h, 1 ≤ rec.cyclomatic_complexity)
    (fun cls ss => ∀ rec ∈ nodesOfStmts cls ss, 1 ≤ rec.cyclomatic_complexity)
    ?_ ?_ ?_ ?_ ?_ ?_ ?_ ?_ ?_ ?_ ?_ ?_ ?_ ?_ ?_ ?_ ?_ ?_ cls ss <;>
  · intros
    simp_all [nodesOfStmt, nodesOfStmts, nodesOfHandler, nodesOfHandlers,
      buildFuncNode, buildClassNode, PythonASTNode.make, calcComplexity,
      ccVisitStmt_eq_add]
    try omega
    try (rintro rec (h | h | h | h) <;> solve_by_elim)
    try (rintro rec (h | h) <;> solve_by_elim)

/-! ## More helper lemmas -/

theorem buildFuncNode_type_parent (cls : Option String) (name : String) (args : Arguments)
    (body : List Stmt) (decs : List Expr) (ret : Option Expr) (ia : Bool) (l1 l2 : Nat) :
    ((buildFuncNode cls name args body decs ret ia l1 l2).type = "method" →
      (buildFuncNode cls name args body decs ret ia l1 l2).parent ≠ "") ∧
    ((buildFuncNode cls name args body decs ret ia l1 l2).type = "function" →
      (buildFuncNode cls name args body decs ret ia l1 l2).parent = "") := by
  cases cls with
  | none => simp [buildFuncNode, strTruthy, PythonASTNode.make]
  | some s =>
      by_cases h : s = ""
      · subst h
        simp [buildFuncNode, strTruthy, PythonASTNode.make]
      · simp [buildFuncNode, strTruthy, PythonASTNode.make, h]

theorem nodesOf_parent_invariant (cls : Option String) (ss : List Stmt) :
    ∀ rec ∈ nodesOfStmts cls ss,
      (rec.type = "method" → rec.parent ≠ "") ∧
      (rec.type = "function" → rec.parent = "") := by
  refine nodesOfStmts.induct
    (fun cls s => ∀ rec ∈ nodesOfStmt cls s,
      (rec.type = "method" → rec.parent ≠ "") ∧ (rec.type = "function" → rec.parent = ""))
    (fun cls hs => ∀ rec ∈ nodesOfHandlers cls hs,
      (rec.type = "method" → rec.parent ≠ "") ∧ (rec.type = "function" → rec.parent = ""))
    (fun cls h => ∀ rec ∈ nodesOfHandler cls h,
      (rec.type = "method" → rec.parent ≠ "") ∧ (rec.type = "function" → rec.parent = ""))
    (fun cls ss => ∀ rec ∈ nodesOfStmts cls ss,
      (rec.type = "method" → rec.parent ≠ "") ∧ (rec.type = "function" → rec.parent = ""))
    ?_ ?_ ?_ ?_ ?_ ?_ ?_ ?_ ?_ ?_ ?_ ?_ ?_ ?_ ?_ ?_ ?_ ?_ cls ss <;>
  · intros
    simp_all [nodesOfStmt, nodesOfStmts, nodesOfHandler, nodesOfHandlers]
    try exact buildFuncNode_type_parent _ _ _ _ _ _ _ _ _
    try (constructor <;> intro hx <;> simp_all [buildClassNode, PythonASTNode.make])
    try (rintro rec (h | h | h | h) <;> solve_by_elim)
    try (rintro rec (h | h) <;> solve_by_elim)

theorem nodesOf_names_eq (cls : Option String) (ss : List Stmt) :
    (nodesOfStmts cls ss).map (fun r => r.name) = visibleDeclNames ss := by
  refine nodesOfStmts.induct
    (fun cls s => (nodesOfStmt cls s).map (fun r => r.name) = visibleDeclNamesStmt s)
    (fun cls hs => (nodesOfHandlers cls hs).map (fun r => r.name) =
      visibleDeclNamesHandlers hs)
    (fun cls h => (nodesOfHandler cls h).map (fun r => r.name) = visibleDeclNamesHandler h)
    (fun cls ss => (nodesOfStmts cls ss).map (fun r => r.name) = visibleDeclNames ss)
    ?_ ?_ ?_ ?_ ?_ ?_ ?_ ?_ ?_ ?_ ?_ ?_ ?_ ?_ ?_ ?_ ?_ ?_ cls ss <;>
  · intros
    simp_all [nodesOfStmt, nodesOfStmts, nodesOfHandler, nodesOfHandlers,
      visibleDeclNamesStmt, visibleDeclNames, visibleDeclNamesHandler,
      visibleDeclNamesHandlers, buildFuncNode, buildClassNode, PythonASTNode.make]

theorem extract_nodes_eq (path : String) (m : PyModule) :
    (extract path (some m)).nodes = nodesOfStmts none m := by
  simp [extract, exVisitStmts_eq_append]

theorem extract_imports_eq (path : String) (m : PyModule) :
    (extract path (some m)).imports = importsOfStmts m := by
  simp [extract, exVisitStmts_eq_append]

/-! ## Claim theorems -/

/-- Claim C1, counterexample: the claim says branching constructs inside
a nested callable's body contribute 0 to the outer callable's score, so
`f`, whose body is only `def g` containing one `if`, would score
1 + 0 = 1; the calculator actually scores it 2, because it has no
`FunctionDef` handler and `generic_visit` descends into `g`'s body. -/
theorem cc_nested_callable_counted_cex :
    calcComplexity outerWithNested = 2 ∧
    specOwnBodyComplexity outerWithNested = 1 ∧
    calcComplexity outerWithNested ≠ specOwnBodyComplexity outerWithNested :=
  ⟨by decide, by decide, by decide⟩

/-- Claim C1, amended: the recorded cyclomatic complexity is computed
over the entire subtree of the callable's declaration node — wrapping
body statements inside a nested callable leaves the outer score
unchanged (the nested body's constructs still count), and a decorator
expression's constructs are counted as well. -/
theorem cc_traverses_whole_declaration_subtree
    (n m : String) (args : Arguments) (body innerBody : List Stmt)
    (decs : List Expr) (ret : Option Expr) (oa ia : Bool)
    (l1 l2 l3 l4 : Nat) (dec : Expr) :
    calcComplexity (.functionDef n args
        [.functionDef m emptyArgs innerBody [] none ia l3 l4] decs ret oa l1 l2) =
      calcComplexity (.functionDef n args innerBody decs ret oa l1 l2) ∧
    calcComplexity (.functionDef n args body (dec :: decs) ret oa l1 l2) =
      ccCountExpr dec + calcComplexity (.functionDef n args body decs ret oa l1 l2) := by
  constructor <;>
  · simp [calcComplexity, ccVisitStmt_eq_add, ccCountStmt, ccCountStmts,
      ccCountExprs, ccCountArguments, emptyArgs, ccCountArgList, ccCountOptArg,
      ccCountOptExprs, ccCountOptExpr]
    try omega

/-- Claim C2, counterexample: an unparseable file is an exception during
parse, yet the printed document is not the usage-error document — its
module field carries the file's base name ("calculator"), not "". -/
theorem main_failure_not_usage_doc_cex :
    ¬ (∀ (path : String) (rp : Option (Option PyModule)) (lf : Bool),
        (rp = none ∨ rp = some none ∨ lf = true) →
        mainRun (.run path rp lf) = (emptyResult "", 0)) := by
  intro h
  have hc := h "calculator.py" (some none) false (Or.inr (Or.inl rfl))
  have hm : (mainRun (.run "calculator.py" (some none) false)).1.module = "calculator" := by
    decide
  rw [hc] at hm
  exact absurd hm (by decide)

/-- Claim C2, amended: with exactly one argument, a read failure or a
non-SyntaxError exception reaching `main`'s handler prints the
usage-error document (module "", all lists empty) and exits 0, while a
`SyntaxError` during parse prints the empty document that still carries
the module name derived from the file path, also exiting 0. -/
theorem main_failure_document (path : String) (rp : Option (Option PyModule)) (lf : Bool)
    (h : rp = none ∨ lf = true) :
    (mainRun (.run path rp lf) = (emptyResult "", 0) ∨ (rp ≠ none ∧ lf = false)) ∧
    mainRun (.run path (some none) false) = (emptyResult (getModuleName path), 0) := by
  constructor
  · rcases h with rfl | rfl
    · exact Or.inl rfl
    · cases rp <;> exact Or.inl rfl
  · rfl

/-- Witness for C2's amended theorem at concrete inputs. -/
theorem main_failure_document_witness :
    (mainRun (.run "a.py" none false) = (emptyResult "", 0) ∨
      ((none : Option (Option PyModule)) ≠ none ∧ false = false)) ∧
    mainRun (.run "a.py" (some none) false) = (emptyResult "a", 0) := by
  have h := main_failure_document "a.py" none false (Or.inl rfl)
  exact ⟨h.1, h.2.trans (by decide)⟩

/-- Claim C3, counterexample: `def f(*, c): pass` declares one
parameter, but the emitted record has an empty parameters sequence and
`parameter_count` 0 — keyword-only parameters are skipped, so the
sequence does not contain one entry per declared parameter. -/
theorem parameters_skip_kwonly_cex :
    specDeclaredParamCount kwOnlyArguments = 1 ∧
    ((extract "m.py" (some [kwOnlyDef])).nodes.map (fun r => r.parameter_count)) = [0] ∧
    ((extract "m.py" (some [kwOnlyDef])).nodes.map (fun r => r.parameters)) = [[]] :=
  ⟨by decide, by decide, by decide⟩

/-- Claim C3, amended: the parameters sequence holds, in order, one
entry per positional-or-keyword parameter (annotation label or empty),
then the "*"-prefixed variadic-positional entry if declared, then the
"**"-prefixed variadic-keyword entry if declared; `parameter_count` is
its length; positional-only and keyword-only parameters (and default
expressions) leave the sequence unchanged. -/
theorem parameters_fixed_order (cls : Option String) (name : String) (args : Arguments)
    (body : List Stmt) (decs : List Expr) (ret : Option Expr) (ia : Bool) (l1 l2 : Nat)
    (p k : List Arg) (kd : List (Option Expr)) (d : List Expr) :
    (buildFuncNode cls name args body decs ret ia l1 l2).parameters =
      args.args.map (fun a => Param.mk a.arg (annotOrEmpty a.annot)) ++
        (match args.vararg with
         | some a => [Param.mk ("*" ++ a.arg) (annotOrEmpty a.annot)]
         | none => []) ++
        (match args.kwarg with
         | some a => [Param.mk ("**" ++ a.arg) (annotOrEmpty a.annot)]
         | none => []) ∧
    (buildFuncNode cls name args body decs ret ia l1 l2).parameter_count =
      (buildFuncNode cls name args body decs ret ia l1 l2).parameters.length ∧
    (buildFuncNode cls name
        { args with posonlyargs := p, kwonlyargs := k, kwDefaults := kd, defaults := d }
        body decs ret ia l1 l2).parameters =
      (buildFuncNode cls name args body decs ret ia l1 l2).parameters := by
  refine ⟨rfl, rfl, ?_⟩
  simp [buildFuncNode]

/-- Claim C4: in every extracted document, method records have a
non-empty parent and function records an empty parent; and a callable
visited while the current-class register holds a (non-empty) class
name is emitted as a method with that name as parent, while a callable
visited with the register unset is emitted as a function with empty
parent. -/
theorem method_function_parent (path : String) (m : PyModule) (c : String) (hc : c ≠ "") :
    (∀ rec ∈ (extract path (some m)).nodes,
        (rec.type = "method" → rec.parent ≠ "") ∧
        (rec.type = "function" → rec.parent = "")) ∧
    (∀ (name : String) (args : Arguments) (body : List Stmt) (decs : List Expr)
        (ret : Option Expr) (ia : Bool) (l1 l2 : Nat),
        (buildFuncNode (some c) name args body decs ret ia l1 l2).type = "method" ∧
        (buildFuncNode (some c) name args body decs ret ia l1 l2).parent = c ∧
        (buildFuncNode none name args body decs ret ia l1 l2).type = "function" ∧
        (buildFuncNode none name args body decs ret ia l1 l2).parent = "") := by
  constructor
  · intro rec hrec
    rw [extract_nodes_eq] at hrec
    exact nodesOf_parent_invariant none m rec hrec
  · intro name args body decs ret ia l1 l2
    refine ⟨?_, ?_, ?_, ?_⟩ <;>
      simp [buildFuncNode, strTruthy, PythonASTNode.make, hc]

/-- Witness for C4 at the nested-class module. -/
theorem method_function_parent_witness :
    ("Calculator" ≠ "") ∧
    ∀ rec ∈ (extract "n.py" (some nestedClassMod)).nodes,
      (rec.type = "method" → rec.parent ≠ "") ∧
      (rec.type = "function" → rec.parent = "") :=
  ⟨by decide, (method_function_parent "n.py" nestedClassMod "Calculator" (by decide)).1⟩

/-- Claim C5: an unparseable file yields the document with the module
name still derived from the input file's base name (extension
stripped) and empty nodes, imports and relationships, at exit status
0. -/
theorem parse_failure_document (path : String) :
    mainRun (.run path (some none) false) = (emptyResult (getModuleName path), 0) ∧
    (emptyResult (getModuleName path)).nodes = [] ∧
    (emptyResult (getModuleName path)).imports = [] ∧
    (emptyResult (getModuleName path)).relationships = [] ∧
    getModuleName "/src/analysis/python/calculator.py" = "calculator" :=
  ⟨rfl, rfl, rfl, rfl, by decide⟩

/-- Claim C6, counterexample: the claim sums the increments over the
constructs in the callable's body, so `def d(x=a and b): pass`, whose
body carries zero counted constructs, would score 1 + 0 = 1; the
calculator scores it 2, because the boolean combination in the
parameter's default expression — outside the body — is counted too. -/
theorem complexity_not_one_plus_body_increments_cex :
    specOwnBodyComplexity boolDefaultDef = 1 ∧
    calcComplexity boolDefaultDef = 2 ∧
    calcComplexity boolDefaultDef ≠ specOwnBodyComplexity boolDefaultDef :=
  ⟨by decide, by decide, by decide⟩

/-- Claim C6, amended: a callable's complexity equals 1 plus the sum of
the fixed increments over the constructs of its whole declaration
subtree (body, decorators, parameter defaults and annotations, return
annotation): +1 per `if` test, +1 per loop, +1 per except handler, +1
per `with`, +(N−1) per N-operand boolean combination, +1 per
comprehension filter; everything else 0.  The `multiply` scenario —
one loop containing one conditional — scores exactly 3. -/
theorem complexity_is_one_plus_increments (s : Stmt) :
    calcComplexity s = 1 + ccCountStmt s ∧
    calcComplexity multiplyDef = 3 :=
  ⟨by simp [calcComplexity, ccVisitStmt_eq_add], by decide⟩

/-- Claim C7, counterexample: `h`'s body (a single `pass`) has zero
branching constructs, yet its emitted record has complexity 2 — the
boolean combination in its decorator list is counted too, because the
calculator is run on the whole declaration node. -/
theorem zero_branch_body_not_one_cex :
    ccCountStmts [Stmt.passStmt] = 0 ∧
    ((extract "d.py" (some [boolDecoratedDef])).nodes.map
        (fun r => r.cyclomatic_complexity)) = [2] :=
  ⟨by decide, by decide⟩

/-- Claim C7, amended: every emitted record has complexity ≥ 1; the
calculator's score starts at its base value and is only ever
incremented; and a callable whose whole declaration subtree carries
zero counted constructs has complexity exactly 1. -/
theorem complexity_at_least_one (path : String) (m : PyModule) (s : Stmt)
    (h : ccCountStmt s = 0) :
    (∀ rec ∈ (extract path (some m)).nodes, 1 ≤ rec.cyclomatic_complexity) ∧
    (∀ (t : Stmt) (acc : Nat), acc ≤ ccVisitStmt acc t) ∧
    calcComplexity s = 1 := by
  refine ⟨?_, ?_, ?_⟩
  · intro rec hrec
    rw [extract_nodes_eq] at hrec
    exact nodesOf_complexity_ge_one none m rec hrec
  · intro t acc
    simp [ccVisitStmt_eq_add]
  · simp [calcComplexity, ccVisitStmt_eq_add, h]

/-- Witness for C7's amended theorem: the identity function has no
counted construct and scores exactly 1. -/
theorem complexity_at_least_one_witness :
    (∀ rec ∈ (extract "c.py" (some [multiplyDef])).nodes, 1 ≤ rec.cyclomatic_complexity) ∧
    (∀ (t : Stmt) (acc : Nat), acc ≤ ccVisitStmt acc t) ∧
    calcComplexity identDef = 1 :=
  complexity_at_least_one "c.py" [multiplyDef] identDef (by decide)

/-- Claim C8: `visit_ImportFrom` emits one record per imported name, in
statement order, with module "M.X" when the enclosing module path M is
non-empty and just "X" otherwise, name the alias if given else the
original name, alias the alias if given else empty, and line the
statement's line; `from typing import Optional, Dict` gives exactly
the records "typing.Optional" and "typing.Dict". -/
theorem importFrom_per_name (module : Option String) (names : List Alias) (line : Nat)
    (cls : Option String) (st : ExtState) (path : String)
    (h : ∀ a ∈ names, a.asname ≠ some "") :
    (exVisitStmt cls st (.importFrom module names line)).imports =
      st.imports ++ names.map (fun a =>
        { module :=
            match module with
            | some mp => if mp = "" then a.name else mp ++ "." ++ a.name
            | none => a.name,
          name := match a.asname with
            | some z => z
            | none => a.name,
          aliasStr := match a.asname with
            | some z => z
            | none => "",
          line := line }) ∧
    (extract path (some [typingImportStmt])).imports =
      [ImportRec.mk "typing.Optional" "Optional" "" 2,
       ImportRec.mk "typing.Dict" "Dict" "" 2] := by
  constructor
  · show st.imports ++ names.map (importFromInfo module line) = _
    congr 1
    apply List.map_congr_left
    intro a ha
    have hz := h a ha
    cases hasn : a.asname with
    | none =>
        cases module with
        | none => simp [importFromInfo, optStrOr, hasn]
        | some mp =>
            by_cases hm : mp = "" <;>
              simp [importFromInfo, optStrOr, hasn, hm]
    | some z =>
        have hzne : z ≠ "" := by
          intro hzz
          exact hz (by rw [hasn, hzz])
        cases module with
        | none => simp [importFromInfo, optStrOr, hasn, hzne]
        | some mp =>
            by_cases hm : mp = "" <;>
              simp [importFromInfo, optStrOr, hasn, hm, hzne]
  · rw [extract_imports_eq]
    decide

/-- Witness for C8 at the `typing` import statement. -/
theorem importFrom_per_name_witness :
    (exVisitStmt none (ExtState.mk [] []) typingImportStmt).imports =
      [] ++ [Alias.mk "Optional" none, Alias.mk "Dict" none].map (fun a =>
        { module :=
            match some "typing" with
            | some mp => if mp = "" then a.name else mp ++ "." ++ a.name
            | none => a.name,
          name := match a.asname with
            | some z => z
            | none => a.name,
          aliasStr := match a.asname with
            | some z => z
            | none => "",
          line := 2 }) ∧
    (extract "m.py" (some [typingImportStmt])).imports =
      [ImportRec.mk "typing.Optional" "Optional" "" 2,
       ImportRec.mk "typing.Dict" "Dict" "" 2] :=
  importFrom_per_name (some "typing") [Alias.mk "Optional" none, Alias.mk "Dict" none] 2
    none (ExtState.mk [] []) "m.py" (by decide)

/-- Claim C9: the emitted declaration records are exactly those of the
declarations reachable without ever entering a callable's body (the
visitor does not descend into function or method bodies), so a
definition nested inside a callable never appears; in particular `f`
containing `def g` yields only the record named "f". -/
theorem no_nested_declaration_records (path : String) (m : PyModule) :
    ((extract path (some m)).nodes).map (fun r => r.name) = visibleDeclNames m ∧
    ((extract path (some [outerWithNested])).nodes).map (fun r => r.name) = ["f"] := by
  constructor
  · rw [extract_nodes_eq]
    exact nodesOf_names_eq none m
  · rw [extract_nodes_eq]
    decide

/-- Claim C10: every class record keeps the constructor defaults for
parent, parameters, return values and both counts; a class nested in
another class's body is still emitted with empty parent, while its
methods get the inner class's name as parent. -/
theorem class_record_defaults (name : String) (bases decs : List Expr) (l1 l2 : Nat) :
    (buildClassNode name bases decs l1 l2).parent = "" ∧
    (buildClassNode name bases decs l1 l2).parameters = [] ∧
    (buildClassNode name bases decs l1 l2).return_values = [] ∧
    (buildClassNode name bases decs l1 l2).parameter_count = 0 ∧
    (buildClassNode name bases decs l1 l2).return_count = 0 ∧
    ((extract "n.py" (some nestedClassMod)).nodes.map
        (fun r => (r.type, r.name, r.parent))) =
      [("class", "Outer", ""), ("class", "Inner", ""), ("method", "m", "Inner")] :=
  ⟨rfl, rfl, rfl, rfl, rfl, by decide⟩
